import Mathlib

/-! ## Layer 1: the Express handler in `src/index.js` -/

/-- An inbound HTTP request to `GET /mint`.  The fields are the
caller-supplied parameters that the specification (section 6) says the mint
operation takes; the actual handler in `index.js` reads none of them. -/
structure HttpRequest where
  recipientAddress : Option String := none
  count : Option Nat := none
  tokenURIs : Option (List String) := none
  idempotencyKey : Option String := none
  deriving DecidableEq, Repr

/-- Arguments of one call to
`nftContract.metaTransaction.mintWithTokenURIsByOwner(to, count, tokenURIs)`. -/
structure MintCallArgs where
  toAddr : String
  count : Nat
  tokenURIs : List String
  deriving DecidableEq, Repr

/-- The constant `to` of `index.js` line 58. -/
def mintTo : String := "0x07ac68355ff8663c09644bc50bb02b60140842a8"

/-- The constant `count` of `index.js` line 61. -/
def mintCount : Nat := 2

/-- The constant `tokenURIs` of `index.js` line 66. -/
def mintTokenURIs : List String := ["ipfs://xxxxx/1", "ipfs://xxxxx/2"]

/-- The fixed argument triple the handler always passes to the SDK call. -/
def fixedMintArgs : MintCallArgs :=
  { toAddr := mintTo, count := mintCount, tokenURIs := mintTokenURIs }

/-- The arguments the handler passes to
`mintWithTokenURIsByOwner` on a given request.  The handler body binds
`to`, `count` and `tokenURIs` to literals and never reads `req`, so the
result does not depend on the request. -/
def handlerArgs (_req : HttpRequest) : MintCallArgs := fixedMintArgs

/-- The trace of SDK calls the handler body performs on one request: the
body awaits `mintWithTokenURIsByOwner` exactly once. -/
def handlerCalls (req : HttpRequest) : List MintCallArgs := [handlerArgs req]

/-- Outcome of dispatching a request through an Express route: either a
response body was sent with `res.send`, or the error was handed to `next`
(the Express error-handling chain). -/
inductive Dispatched (D E : Type) where
  | success : D → Dispatched D E
  | nexted : E → Dispatched D E
  deriving DecidableEq, Repr

/-- The async handler body of `GET /mint` (lines 56–78 of `index.js`):
await the SDK call on the fixed arguments and send the resolved value.
`sdk` is the behavior of `nftContract.metaTransaction.mintWithTokenURIsByOwner`,
resolving (`Except.ok`) or rejecting (`Except.error`). -/
def mintEndpointBody {D E : Type} (sdk : MintCallArgs → Except E D)
    (req : HttpRequest) : Except E D :=
  sdk (handlerArgs req)

/-- `express-async-handler`: runs the async body; a resolved body means the
response it sent stands, a rejected body is forwarded to `next`. -/
def asyncHandlerWrap {D E : Type} (fn : HttpRequest → Except E D)
    (req : HttpRequest) : Dispatched D E :=
  match fn req with
  | Except.ok d => Dispatched.success d
  | Except.error e => Dispatched.nexted e

/-- The installed `GET /mint` route: the body wrapped in `asyncHandler`. -/
def mintEndpoint {D E : Type} (sdk : MintCallArgs → Except E D)
    (req : HttpRequest) : Dispatched D E :=
  asyncHandlerWrap (mintEndpointBody sdk) req

/-- Reading of claim C3, following the spec words (section 6): the mint
operation takes `recipientAddress`, `count` and `tokenURIs` from the
caller, i.e. whenever the request supplies them, the SDK call the handler
makes uses exactly those caller-supplied values. -/
def specTakesArgsFromCaller : Prop :=
  ∀ (req : HttpRequest) (r : String) (c : Nat) (u : List String),
    req.recipientAddress = some r → req.count = some c →
    req.tokenURIs = some u → handlerArgs req = { toAddr := r, count := c, tokenURIs := u }

/-- A concrete request whose caller-supplied parameters differ from the
hardcoded constants. -/
def probeRequest : HttpRequest :=
  { recipientAddress := some "0x0000000000000000000000000000000000000001",
    count := some 1, tokenURIs := some ["ipfs://probe/1"],
    idempotencyKey := some "k1" }

/-! ## Layer 2: the meta-transaction core, modelled from the spec

The repository example delegates nonce management, signing, relay
submission, idempotency and status tracking to the external `flair-sdk`;
that code is not under `src/`.  The definitions below are modelled from
the specification (sections 3–7). -/

/-- Modelled from the spec: the error taxonomy of section 7.  The
implementing code (the SDK meta-transaction core) is not under `src/`. -/
inductive MintError where
  | invalidRequest
  | ledgerUnavailable
  | signingUnavailable
  | relayRejected
  | relayUnavailable
  | invalidTransition
  deriving DecidableEq, Repr

/-- Modelled from the spec: the Nonce Ledger state (section 4.1), one
per-account counter holding the next unused nonce.  The implementing
code is not under `src/`. -/
def NonceState : Type := String → Nat

/-- Modelled from the spec: `allocate(account) -> nonce` (section 4.1)
returns the next unused nonce for the account and atomically advances the
counter.  The implementing code is not under `src/`. -/
def allocate (s : NonceState) (a : String) : Nat × NonceState :=
  (s a, fun b => if b = a then s a + 1 else s b)

/-- Modelled from the spec: the serialized order of `allocate` calls under
concurrent requests (section 5 makes the ledger the sole serialization
point, so any concurrent execution is some interleaving, i.e. some list of
accounts).  Returns the allocation trace and the final state.  The
implementing code is not under `src/`. -/
def allocateAll (s : NonceState) : List String → List (String × Nat) × NonceState
  | [] => ([], s)
  | a :: rest =>
    let step := allocate s a
    let tail := allocateAll step.2 rest
    ((a, step.1) :: tail.1, tail.2)

/-- The nonces an allocation trace hands out for one given account, in
trace order. -/
def noncesFor (a : String) (tr : List (String × Nat)) : List Nat :=
  tr.filterMap (fun p => if p.1 = a then some p.2 else none)

/-- Modelled from the spec: the signable payload of section 3
(MetaTransactionPayload).  The implementing code is not under `src/`. -/
structure MetaTransactionPayload where
  chainId : Nat
  contractAddress : String
  callDescriptor : String
  nonce : Nat
  domainContext : String
  deriving DecidableEq, Repr

/-- Modelled from the spec: SignedEnvelope (section 3), a payload plus the
signature bytes, immutable once produced.  The implementing code is not
under `src/`. -/
structure SignedEnvelope where
  payload : MetaTransactionPayload
  signature : String
  deriving DecidableEq, Repr

/-- Modelled from the spec: process configuration (section 6) — chain id,
contract address, signing account, domain versioning.  The implementing
code is not under `src/`. -/
structure CoreConfig where
  chainId : Nat
  contractAddress : String
  account : String
  contractVersion : String
  deriving DecidableEq, Repr

/-- Modelled from the spec: MintRequest (section 3), the logical intent.
The implementing code is not under `src/`. -/
structure MintRequest where
  recipientAddress : String
  count : Nat
  tokenURIs : List String
  idempotencyKey : String
  deriving DecidableEq, Repr

/-- Modelled from the spec: a well-formed chain address (section 4.2
validates `recipientAddress`); a 0x-prefixed 42-character string. -/
def wellFormedAddress (a : String) : Bool :=
  a.startsWith "0x" && a.length == 42

/-- Modelled from the spec: the opaque call-descriptor encoding of the
mint intent (section 4.2).  The implementing code is not under `src/`. -/
def encodeCallDescriptor (req : MintRequest) : String :=
  String.intercalate "|" ("mintWithTokenURIsByOwner" :: req.recipientAddress ::
    toString req.count :: req.tokenURIs)

/-- Modelled from the spec: `build(mintRequest, account)` of the
Meta-Transaction Builder (section 4.2).  Validates the request first and
fails with `InvalidRequest` before touching the Nonce Ledger; on a valid
request it allocates exactly one nonce and stamps the domain context.
Returns the outcome together with the (possibly advanced) ledger state.
The implementing code is not under `src/`. -/
def build (cfg : CoreConfig) (req : MintRequest) (s : NonceState) :
    Except MintError MetaTransactionPayload × NonceState :=
  if req.count ≠ req.tokenURIs.length then
    (Except.error MintError.invalidRequest, s)
  else if ¬ wellFormedAddress req.recipientAddress then
    (Except.error MintError.invalidRequest, s)
  else
    let step := allocate s cfg.account
    (Except.ok
      { chainId := cfg.chainId
        contractAddress := cfg.contractAddress
        callDescriptor := encodeCallDescriptor req
        nonce := step.1
        domainContext := toString cfg.chainId ++ "/" ++ cfg.contractAddress ++
          "/" ++ cfg.contractVersion },
      step.2)

/-- Modelled from the spec: the SubmissionRecord status set of section 3.
The implementing code is not under `src/`. -/
inductive SubStatus where
  | pending
  | submitted
  | mined
  | failed
  deriving DecidableEq, Repr

/-- Modelled from the spec: a SubmissionRecord (section 3), the ledger
entry keyed by the idempotency key.  The implementing code is not under
`src/`. -/
structure SubmissionRecord where
  key : String
  status : SubStatus
  trackingHandle : Option String
  assignedNonce : Option Nat
  lastError : Option MintError
  deriving DecidableEq, Repr

/-- Modelled from the spec: the Submission Ledger state (section 4.5),
mapping idempotency keys to records.  The implementing code is not under
`src/`. -/
def SubLedger : Type := String → Option SubmissionRecord

/-- Store a record in the ledger under its key. -/
def putRecord (L : SubLedger) (r : SubmissionRecord) : SubLedger :=
  fun k => if k = r.key then some r else L k

/-- Modelled from the spec: the state-machine order of section 3 —
`Pending → Submitted → Mined/Failed`, with a failure in
building/signing/submitting taking Pending directly to Failed
(section 4.7); Mined and Failed are terminal. -/
def allowedTransition : SubStatus → SubStatus → Bool
  | SubStatus.pending, SubStatus.submitted => true
  | SubStatus.pending, SubStatus.failed => true
  | SubStatus.submitted, SubStatus.mined => true
  | SubStatus.submitted, SubStatus.failed => true
  | _, _ => false

/-- A status after which no further transition occurs (glossary:
terminal outcome). -/
def terminalStatus : SubStatus → Bool
  | SubStatus.mined => true
  | SubStatus.failed => true
  | _ => false

/-- Modelled from the spec: `advance(key, newStatus, extra)` of the
Submission Ledger (section 4.5).  A transition outside the defined
state-machine order fails with `InvalidTransition` and the ledger is
returned unchanged; an allowed transition updates the record, recording
the tracking handle when moving to Submitted and the error when moving to
Failed.  The implementing code is not under `src/`. -/
def advance (L : SubLedger) (key : String) (newStatus : SubStatus)
    (extra : Option String) : Option MintError × SubLedger :=
  match L key with
  | none => (some MintError.invalidTransition, L)
  | some r =>
    if allowedTransition r.status newStatus then
      (none, putRecord L
        { r with
          status := newStatus
          trackingHandle :=
            if newStatus = SubStatus.submitted then extra else r.trackingHandle })
    else (some MintError.invalidTransition, L)

/-- Modelled from the spec: the relay's possible responses to one
submission attempt (section 4.4) — acceptance with a tracking handle,
duplicate-detection returning the previously issued handle, permanent
rejection, or one of the transient failures (timeout, 5xx-equivalent,
connection error).  The implementing code is not under `src/`. -/
inductive RelayReply where
  | accepted : String → RelayReply
  | duplicate : String → RelayReply
  | permanentReject : String → RelayReply
  | timeout : RelayReply
  | http5xx : RelayReply
  | connError : RelayReply
  deriving DecidableEq, Repr

/-- The defined transient-failure set of section 4.4: timeouts,
5xx-equivalent responses, connection errors. -/
def transientReply : RelayReply → Bool
  | RelayReply.timeout => true
  | RelayReply.http5xx => true
  | RelayReply.connError => true
  | _ => false

/-- Modelled from the spec: the observable result of one Relay Client
`submit` call — its outcome, the trace of envelopes sent on each network
attempt, and how many nonce reconciliation calls it made.  The
implementing code is not under `src/`. -/
structure SubmitResult where
  outcome : Except MintError String
  attempts : List SignedEnvelope
  reconcileCalls : Nat
  deriving Repr

/-- Modelled from the spec: the Relay Client retry loop (section 4.4),
starting at attempt index `i` with the given remaining attempt budget.
`oracle` gives the relay's reply to each attempt.  Acceptance and
duplicate-detection succeed with the handle; permanent rejection fails
immediately with `RelayRejected` and performs one nonce reconciliation;
a transient failure retries with the identical envelope; an exhausted
budget fails with `RelayUnavailable`.  The implementing code is not
under `src/`. -/
def submitFrom (env : SignedEnvelope) (oracle : Nat → RelayReply) (i : Nat) :
    Nat → SubmitResult
  | 0 => { outcome := Except.error MintError.relayUnavailable, attempts := [],
           reconcileCalls := 0 }
  | fuel + 1 =>
    match oracle i with
    | RelayReply.accepted h =>
      { outcome := Except.ok h, attempts := [env], reconcileCalls := 0 }
    | RelayReply.duplicate h =>
      { outcome := Except.ok h, attempts := [env], reconcileCalls := 0 }
    | RelayReply.permanentReject _ =>
      { outcome := Except.error MintError.relayRejected, attempts := [env],
        reconcileCalls := 1 }
    | RelayReply.timeout =>
      let rest := submitFrom env oracle (i + 1) fuel
      { outcome := rest.outcome, attempts := env :: rest.attempts,
        reconcileCalls := rest.reconcileCalls }
    | RelayReply.http5xx =>
      let rest := submitFrom env oracle (i + 1) fuel
      { outcome := rest.outcome, attempts := env :: rest.attempts,
        reconcileCalls := rest.reconcileCalls }
    | RelayReply.connError =>
      let rest := submitFrom env oracle (i + 1) fuel
      { outcome := rest.outcome, attempts := env :: rest.attempts,
        reconcileCalls := rest.reconcileCalls }

/-- Modelled from the spec: `submit(signedEnvelope) -> trackingHandle`
(section 4.4), bounded by `maxAttempts`.  The implementing code is not
under `src/`. -/
def submit (env : SignedEnvelope) (oracle : Nat → RelayReply)
    (maxAttempts : Nat) : SubmitResult :=
  submitFrom env oracle 0 maxAttempts

/-- Modelled from the spec: a single relay poll observation (section 4.6):
still pending, mined with an on-chain reference, or definitively reverted
with a reason.  The implementing code is not under `src/`. -/
inductive RelayObservation where
  | stillPendingObs : RelayObservation
  | minedObs : String → RelayObservation
  | revertedObs : String → RelayObservation
  deriving DecidableEq, Repr

/-- Modelled from the spec: the outcome `awaitTerminal` hands the caller
(section 4.6): a non-terminal "still pending" value, or a terminal Mined
or Failed outcome.  The implementing code is not under `src/`. -/
inductive TrackOutcome where
  | stillPending : TrackOutcome
  | minedOut : String → TrackOutcome
  | failedOut : String → TrackOutcome
  deriving DecidableEq, Repr

/-- Whether a tracking outcome is terminal (Mined or Failed). -/
def terminalOutcome : TrackOutcome → Bool
  | TrackOutcome.stillPending => false
  | TrackOutcome.minedOut _ => true
  | TrackOutcome.failedOut _ => true

/-- Modelled from the spec: the Status Tracker polling loop of
`awaitTerminal(trackingHandle, timeout)` (section 4.6), polling from
index `i` with `timeout` polls remaining.  `poll` gives the relay's
answer to each poll.  On observing Mined or a definitive revert it
returns the terminal outcome; when the timeout elapses first it returns
the non-terminal still-pending value instead of failing.  The
implementing code is not under `src/`. -/
def awaitTerminalFrom (poll : Nat → RelayObservation) (i : Nat) :
    Nat → TrackOutcome
  | 0 => TrackOutcome.stillPending
  | t + 1 =>
    match poll i with
    | RelayObservation.stillPendingObs => awaitTerminalFrom poll (i + 1) t
    | RelayObservation.minedObs ref => TrackOutcome.minedOut ref
    | RelayObservation.revertedObs why => TrackOutcome.failedOut why

/-- Modelled from the spec: `awaitTerminal(trackingHandle, timeout) ->
outcome` (section 4.6).  The implementing code is not under `src/`. -/
def awaitTerminal (poll : Nat → RelayObservation) (timeout : Nat) :
    TrackOutcome :=
  awaitTerminalFrom poll 0 timeout

/-- Modelled from the spec: the shared state the orchestrator acts on —
the Nonce Ledger, the Submission Ledger, and the trace of every
SignedEnvelope the Signer has ever produced.  The implementing code is
not under `src/`. -/
structure SysState where
  nonces : NonceState
  ledger : SubLedger
  envelopes : List SignedEnvelope

/-- Modelled from the spec: the Building → Signing → Submitting leg of the
orchestrator state machine (section 4.7), entered only for a new
idempotency key.  A build failure marks the record Failed with the
originating error; otherwise the payload is signed once, the envelope is
appended to the signing trace and submitted, and the record moves to
Submitted with the relay handle (or Failed on a relay error).  The
implementing code is not under `src/`. -/
def runPipeline (cfg : CoreConfig) (sign : MetaTransactionPayload → String)
    (relay : SignedEnvelope → Except MintError String)
    (st : SysState) (req : MintRequest) :
    Except MintError SubmissionRecord × SysState :=
  match build cfg req st.nonces with
  | (Except.error e, s1) =>
    let r : SubmissionRecord :=
      { key := req.idempotencyKey, status := SubStatus.failed,
        trackingHandle := none, assignedNonce := none, lastError := some e }
    (Except.error e,
      { nonces := s1, ledger := putRecord st.ledger r, envelopes := st.envelopes })
  | (Except.ok p, s1) =>
    let env : SignedEnvelope := { payload := p, signature := sign p }
    match relay env with
    | Except.error e =>
      let r : SubmissionRecord :=
        { key := req.idempotencyKey, status := SubStatus.failed,
          trackingHandle := none, assignedNonce := some p.nonce,
          lastError := some e }
      (Except.error e,
        { nonces := s1, ledger := putRecord st.ledger r,
          envelopes := st.envelopes ++ [env] })
    | Except.ok handle =>
      let r : SubmissionRecord :=
        { key := req.idempotencyKey, status := SubStatus.submitted,
          trackingHandle := some handle, assignedNonce := some p.nonce,
          lastError := none }
      (Except.ok r,
        { nonces := s1, ledger := putRecord st.ledger r,
          envelopes := st.envelopes ++ [env] })

/-- Modelled from the spec: one orchestrated mint call (sections 4.5 and
4.7) — the atomic Submission Ledger check first: an existing record for
the idempotency key is returned as-is, short-circuiting the
build/sign/submit pipeline; only a new key enters the pipeline.  The
implementing code is not under `src/`. -/
def mintOnce (cfg : CoreConfig) (sign : MetaTransactionPayload → String)
    (relay : SignedEnvelope → Except MintError String)
    (st : SysState) (req : MintRequest) :
    Except MintError SubmissionRecord × SysState :=
  match st.ledger req.idempotencyKey with
  | some r => (Except.ok r, st)
  | none => runPipeline cfg sign relay st req

/-! ## Theorems -/

/-- C3 (counterexample): the handler does not take its arguments from the
caller — on `probeRequest`, which supplies recipient
`0x…01`, count 1 and one token URI, the SDK call still uses the hardcoded
`to`, count 2 and the two hardcoded URIs. -/
theorem mint_handler_not_caller_driven : ¬ specTakesArgsFromCaller := by
  intro h
  have h1 := h probeRequest "0x0000000000000000000000000000000000000001" 1
    ["ipfs://probe/1"] rfl rfl rfl
  have h2 := congrArg MintCallArgs.count h1
  simp [handlerArgs, fixedMintArgs, mintCount] at h2

/-- C3 (amended): the `GET /mint` handler ignores the caller-supplied
parameters: on every request it calls the SDK with the fixed arguments
(`to = 0x07ac…42a8`, `count = 2`,
`tokenURIs = [ipfs://xxxxx/1, ipfs://xxxxx/2]`) and the response it sends
is the SDK resolution of those fixed arguments, so the response is
independent of the caller-supplied inputs. -/
theorem mint_handler_response_ignores_caller {D E : Type}
    (sdk : MintCallArgs → Except E D) (req req2 : HttpRequest) :
    handlerArgs req = fixedMintArgs ∧
    mintEndpointBody sdk req = sdk fixedMintArgs ∧
    mintEndpoint sdk req = mintEndpoint sdk req2 := by
  refine ⟨rfl, rfl, ?_⟩
  rfl

/-- C9: every request to `GET /mint`, whatever its parameters, makes the
SDK call exactly once, with the fixed arguments
`to = 0x07ac68355ff8663c09644bc50bb02b60140842a8`, `count = 2`,
`tokenURIs = [ipfs://xxxxx/1, ipfs://xxxxx/2]`; any two requests produce
identical SDK arguments; and when the SDK call resolves, the resolved
value is sent as the response. -/
theorem mint_handler_fixed_single_call {D E : Type}
    (sdk : MintCallArgs → Except E D) (req req2 : HttpRequest) :
    handlerCalls req = [fixedMintArgs] ∧
    (handlerCalls req).length = 1 ∧
    handlerArgs req = handlerArgs req2 ∧
    (∀ d : D, sdk fixedMintArgs = Except.ok d →
      mintEndpoint sdk req = Dispatched.success d) := by
  refine ⟨rfl, rfl, rfl, ?_⟩
  intro d hd
  simp [mintEndpoint, asyncHandlerWrap, mintEndpointBody, handlerArgs, hd]

/-- C10: the handler sends a success body if and only if the SDK call
resolves, and a rejected SDK call is forwarded to the Express
error-handling chain by `asyncHandler` rather than swallowed. -/
theorem mint_handler_error_propagation {D E : Type}
    (sdk : MintCallArgs → Except E D) (req : HttpRequest) :
    (∀ d : D, mintEndpoint sdk req = Dispatched.success d ↔
      sdk (handlerArgs req) = Except.ok d) ∧
    (∀ e : E, sdk (handlerArgs req) = Except.error e →
      mintEndpoint sdk req = Dispatched.nexted e ∧
      ∀ d : D, mintEndpoint sdk req ≠ Dispatched.success d) := by
  constructor
  · intro d
    constructor
    · intro h
      unfold mintEndpoint asyncHandlerWrap mintEndpointBody at h
      cases hs : sdk (handlerArgs req) with
      | ok x => rw [hs] at h; cases h; rfl
      | error e => rw [hs] at h; cases h
    · intro h
      simp [mintEndpoint, asyncHandlerWrap, mintEndpointBody, h]
  · intro e he
    constructor
    · simp [mintEndpoint, asyncHandlerWrap, mintEndpointBody, he]
    · intro d hd
      unfold mintEndpoint asyncHandlerWrap mintEndpointBody at hd
      rw [he] at hd
      cases hd

/-- In any serialized run, the nonces allocated to account `a` are exactly
the consecutive block starting at the account's current counter. -/
theorem allocateAll_noncesFor (accts : List String) (s : NonceState) (a : String) :
    noncesFor a (allocateAll s accts).1 = List.range' (s a) (accts.count a) := by
  induction accts generalizing s with
  | nil => simp [allocateAll, noncesFor]
  | cons b rest ih =>
    by_cases hb : b = a
    · subst hb
      simp only [allocateAll, allocate, noncesFor, List.filterMap_cons, if_pos rfl,
        List.count_cons_self]
      rw [List.range'_succ]
      refine congrArg (List.cons (s b)) ?_
      have := ih (fun c => if c = b then s b + 1 else s c)
      rw [if_pos rfl] at this
      exact this
    · have hcount : (b :: rest).count a = rest.count a := by
        simp [List.count_cons, hb]
      simp only [allocateAll, allocate, noncesFor, List.filterMap_cons, if_neg hb, hcount]
      have := ih (fun c => if c = b then s b + 1 else s c)
      rw [if_neg (fun h => hb h.symm)] at this
      exact this

/-- Successive elements of `List.range' s n` differ by exactly one. -/
theorem range_succ_chain (n s : Nat) :
    List.Chain' (fun m k => k = m + 1) (List.range' s n) := by
  induction n generalizing s with
  | zero => simp
  | succ n ih =>
    rw [List.range'_succ]
    cases n with
    | zero => simp
    | succ m =>
      rw [List.range'_succ]
      exact List.Chain'.cons rfl (by rw [← List.range'_succ]; exact ih (s + 1))

/-- C4: for every serialized sequence of (possibly concurrent) allocations
and every account, the nonces the Nonce Ledger hands out for that account
form the consecutive run starting at its counter — strictly increasing,
no duplicates, no gaps (each successor is the predecessor plus one). -/
theorem nonce_ledger_gap_free (s : NonceState) (accts : List String) (a : String) :
    noncesFor a (allocateAll s accts).1 = List.range' (s a) (accts.count a) ∧
    List.Chain' (fun m k => k = m + 1) (noncesFor a (allocateAll s accts).1) ∧
    List.Pairwise (· < ·) (noncesFor a (allocateAll s accts).1) := by
  refine ⟨allocateAll_noncesFor accts s a, ?_, ?_⟩
  · rw [allocateAll_noncesFor accts s a]
    exact range_succ_chain _ _
  · rw [allocateAll_noncesFor accts s a]
    exact List.pairwise_lt_range' _ _

/-- C2: a mint request whose `count` differs from the length of
`tokenURIs` fails with `InvalidRequest` at the Builder, the Nonce Ledger
state coming back from `build` is exactly the input state — no nonce was
allocated — and the orchestrated operation on a fresh idempotency key
surfaces the same `InvalidRequest` with the Nonce Ledger unchanged. -/
theorem build_count_mismatch_no_alloc (cfg : CoreConfig)
    (sign : MetaTransactionPayload → String)
    (relay : SignedEnvelope → Except MintError String)
    (st : SysState) (req : MintRequest)
    (h : req.count ≠ req.tokenURIs.length)
    (hnew : st.ledger req.idempotencyKey = none) :
    build cfg req st.nonces = (Except.error MintError.invalidRequest, st.nonces) ∧
    (mintOnce cfg sign relay st req).1 = Except.error MintError.invalidRequest ∧
    (mintOnce cfg sign relay st req).2.nonces = st.nonces := by
  have hb : build cfg req st.nonces =
      (Except.error MintError.invalidRequest, st.nonces) := by
    simp [build, h]
  refine ⟨hb, ?_, ?_⟩
  · unfold mintOnce
    rw [hnew]
    unfold runPipeline
    rw [hb]
  · unfold mintOnce
    rw [hnew]
    unfold runPipeline
    rw [hb]

/-- Witness for C2: a concrete request with `count = 2` and a single token
URI is rejected with `InvalidRequest` and leaves a concrete ledger
unchanged, at the Builder and through the orchestrator. -/
theorem build_count_mismatch_no_alloc_witness :
    build { chainId := 137, contractAddress := "0xc", account := "acct",
            contractVersion := "v1" }
          { recipientAddress := "0x07ac68355ff8663c09644bc50bb02b60140842a8",
            count := 2, tokenURIs := ["ipfs://a"], idempotencyKey := "k1" }
          (fun _ => 5) =
      (Except.error MintError.invalidRequest, fun _ => 5) ∧
    (mintOnce { chainId := 137, contractAddress := "0xc", account := "acct",
                contractVersion := "v1" }
      (fun _ => "sig") (fun _ => Except.ok "t1")
      { nonces := fun _ => 5, ledger := fun _ => none, envelopes := [] }
      { recipientAddress := "0x07ac68355ff8663c09644bc50bb02b60140842a8",
        count := 2, tokenURIs := ["ipfs://a"], idempotencyKey := "k1" }).1 =
      Except.error MintError.invalidRequest ∧
    (mintOnce { chainId := 137, contractAddress := "0xc", account := "acct",
                contractVersion := "v1" }
      (fun _ => "sig") (fun _ => Except.ok "t1")
      { nonces := fun _ => 5, ledger := fun _ => none, envelopes := [] }
      { recipientAddress := "0x07ac68355ff8663c09644bc50bb02b60140842a8",
        count := 2, tokenURIs := ["ipfs://a"], idempotencyKey := "k1" }).2.nonces =
      (fun _ => 5) :=
  build_count_mismatch_no_alloc
    { chainId := 137, contractAddress := "0xc", account := "acct",
      contractVersion := "v1" }
    (fun _ => "sig") (fun _ => Except.ok "t1")
    { nonces := fun _ => 5, ledger := fun _ => none, envelopes := [] }
    { recipientAddress := "0x07ac68355ff8663c09644bc50bb02b60140842a8",
      count := 2, tokenURIs := ["ipfs://a"], idempotencyKey := "k1" }
    (by decide) rfl

/-- C7: a record in a terminal status (Mined or Failed) admits no further
transition — every requested new status is outside the defined order — and
any `advance` call requesting a transition outside the
`Pending → Submitted → Mined/Failed` order fails with `InvalidTransition`
and returns the ledger unchanged. -/
theorem advance_rejects_bad_transitions (L : SubLedger) (key : String)
    (newStatus : SubStatus) (extra : Option String) (r : SubmissionRecord)
    (hr : L key = some r) :
    (terminalStatus r.status = true →
      ∀ s2 : SubStatus, allowedTransition r.status s2 = false) ∧
    (allowedTransition r.status newStatus = false →
      advance L key newStatus extra = (some MintError.invalidTransition, L)) := by
  constructor
  · intro ht s2
    cases h : r.status <;> simp [terminalStatus, h] at ht ⊢ <;>
      cases s2 <;> simp [allowedTransition]
  · intro hbad
    simp [advance, hr, hbad]

/-- Witness for C7: a concrete ledger holding a Mined record under key
`k1` rejects an `advance` back to Pending with `InvalidTransition`,
unchanged. -/
theorem advance_rejects_bad_transitions_witness :
    (terminalStatus SubStatus.mined = true →
      ∀ s2 : SubStatus, allowedTransition SubStatus.mined s2 = false) ∧
    (allowedTransition SubStatus.mined SubStatus.pending = false →
      advance
        (fun k => if k = "k1" then
          some { key := "k1", status := SubStatus.mined,
                 trackingHandle := some "t1", assignedNonce := some 5,
                 lastError := none }
          else none)
        "k1" SubStatus.pending none =
      (some MintError.invalidTransition,
        fun k => if k = "k1" then
          some { key := "k1", status := SubStatus.mined,
                 trackingHandle := some "t1", assignedNonce := some 5,
                 lastError := none }
          else none)) :=
  advance_rejects_bad_transitions _ "k1" SubStatus.pending none
    { key := "k1", status := SubStatus.mined, trackingHandle := some "t1",
      assignedNonce := some 5, lastError := none } (by simp)

/-- Every envelope the retry loop ever puts on the wire is the input
envelope itself. -/
theorem submitFrom_attempts_const (env : SignedEnvelope)
    (oracle : Nat → RelayReply) (i fuel : Nat) :
    ∀ e ∈ (submitFrom env oracle i fuel).attempts, e = env := by
  induction fuel generalizing i with
  | zero => intro e he; simp [submitFrom] at he
  | succ fuel ih =>
    intro e he
    cases ho : oracle i <;> simp [submitFrom, ho] at he
    · exact he
    · exact he
    · exact he
    · rcases he with he | he
      · exact he
      · exact ih (i + 1) e he
    · rcases he with he | he
      · exact he
      · exact ih (i + 1) e he
    · rcases he with he | he
      · exact he
      · exact ih (i + 1) e he

/-- C5: within one Relay Client submission (all retries included), any two
attempts put identical bytes on the wire — in particular identical
signature bytes; the envelope is never re-signed. -/
theorem submit_never_resigns (env : SignedEnvelope) (oracle : Nat → RelayReply)
    (maxAttempts : Nat) (e1 e2 : SignedEnvelope)
    (h1 : e1 ∈ (submit env oracle maxAttempts).attempts)
    (h2 : e2 ∈ (submit env oracle maxAttempts).attempts) :
    e1 = e2 ∧ e1.signature = e2.signature := by
  have k1 := submitFrom_attempts_const env oracle 0 maxAttempts e1 h1
  have k2 := submitFrom_attempts_const env oracle 0 maxAttempts e2 h2
  subst k1; subst k2; exact ⟨rfl, rfl⟩

/-- Witness for C5: a concrete run that retries once after a timeout and
is then accepted makes two attempts with the same signature bytes. -/
theorem submit_never_resigns_witness :
    { payload := { chainId := 137, contractAddress := "0xc",
                   callDescriptor := "cd", nonce := 5, domainContext := "dc" },
      signature := "sigbytes" } ∈
      (submit
        { payload := { chainId := 137, contractAddress := "0xc",
                       callDescriptor := "cd", nonce := 5, domainContext := "dc" },
          signature := "sigbytes" }
        (fun j => if j = 0 then RelayReply.timeout else RelayReply.accepted "t1")
        3).attempts ∧
    ({ payload := { chainId := 137, contractAddress := "0xc",
                    callDescriptor := "cd", nonce := 5, domainContext := "dc" },
       signature := "sigbytes" } : SignedEnvelope).signature = "sigbytes" := by
  refine ⟨by simp [submit, submitFrom], ?_⟩
  have h := submit_never_resigns
    { payload := { chainId := 137, contractAddress := "0xc",
                   callDescriptor := "cd", nonce := 5, domainContext := "dc" },
      signature := "sigbytes" }
    (fun j => if j = 0 then RelayReply.timeout else RelayReply.accepted "t1")
    3
    { payload := { chainId := 137, contractAddress := "0xc",
                   callDescriptor := "cd", nonce := 5, domainContext := "dc" },
      signature := "sigbytes" }
    { payload := { chainId := 137, contractAddress := "0xc",
                   callDescriptor := "cd", nonce := 5, domainContext := "dc" },
      signature := "sigbytes" }
    (by simp [submit, submitFrom]) (by simp [submit, submitFrom])
  exact congrArg SignedEnvelope.signature h.1

/-- A further network attempt is made only after a transient reply: every
non-final attempt index received a reply in the transient set. -/
theorem submitFrom_retry_only_transient (env : SignedEnvelope)
    (oracle : Nat → RelayReply) (fuel : Nat) :
    ∀ (i j : Nat), j + 1 < (submitFrom env oracle i fuel).attempts.length →
    transientReply (oracle (i + j)) = true := by
  induction fuel with
  | zero => intro i j h; simp [submitFrom] at h
  | succ fuel ih =>
    intro i j h
    cases ho : oracle i with
    | accepted h2 => simp [submitFrom, ho] at h
    | duplicate h2 => simp [submitFrom, ho] at h
    | permanentReject h2 => simp [submitFrom, ho] at h
    | timeout =>
      simp only [submitFrom, ho, List.length_cons] at h
      cases j with
      | zero => simp [ho, transientReply]
      | succ j =>
        have e : i + (j + 1) = i + 1 + j := by omega
        rw [e]
        exact ih (i + 1) j (by omega)
    | http5xx =>
      simp only [submitFrom, ho, List.length_cons] at h
      cases j with
      | zero => simp [ho, transientReply]
      | succ j =>
        have e : i + (j + 1) = i + 1 + j := by omega
        rw [e]
        exact ih (i + 1) j (by omega)
    | connError =>
      simp only [submitFrom, ho, List.length_cons] at h
      cases j with
      | zero => simp [ho, transientReply]
      | succ j =>
        have e : i + (j + 1) = i + 1 + j := by omega
        rw [e]
        exact ih (i + 1) j (by omega)

/-- When every reply in the attempt budget is transient, the loop exhausts
its retries and fails with `RelayUnavailable`. -/
theorem submitFrom_exhaust (env : SignedEnvelope) (oracle : Nat → RelayReply)
    (fuel : Nat) :
    ∀ i : Nat, (∀ j, j < fuel → transientReply (oracle (i + j)) = true) →
    (submitFrom env oracle i fuel).outcome =
      Except.error MintError.relayUnavailable := by
  induction fuel with
  | zero => intro i _; rfl
  | succ fuel ih =>
    intro i h
    have h0 : transientReply (oracle i) = true := by
      simpa using h 0 (Nat.succ_pos _)
    have hshift : ∀ j, j < fuel → transientReply (oracle (i + 1 + j)) = true := by
      intro j hj
      have e : i + 1 + j = i + (j + 1) := by omega
      rw [e]
      exact h (j + 1) (by omega)
    cases ho : oracle i with
    | accepted h2 => rw [ho] at h0; simp [transientReply] at h0
    | duplicate h2 => rw [ho] at h0; simp [transientReply] at h0
    | permanentReject h2 => rw [ho] at h0; simp [transientReply] at h0
    | timeout => simp only [submitFrom, ho]; exact ih (i + 1) hshift
    | http5xx => simp only [submitFrom, ho]; exact ih (i + 1) hshift
    | connError => simp only [submitFrom, ho]; exact ih (i + 1) hshift

/-- When the first non-transient reply is a permanent rejection inside the
attempt budget, the loop fails with `RelayRejected` and makes exactly one
nonce reconciliation call. -/
theorem submitFrom_permanent (env : SignedEnvelope) (oracle : Nat → RelayReply)
    (reason : String) (k : Nat) :
    ∀ (i fuel : Nat), (∀ j, j < k → transientReply (oracle (i + j)) = true) →
    oracle (i + k) = RelayReply.permanentReject reason → k < fuel →
    (submitFrom env oracle i fuel).outcome =
      Except.error MintError.relayRejected ∧
    (submitFrom env oracle i fuel).reconcileCalls = 1 := by
  induction k with
  | zero =>
    intro i fuel _ hk hfuel
    cases fuel with
    | zero => omega
    | succ fuel =>
      have hoi : oracle i = RelayReply.permanentReject reason := by simpa using hk
      simp [submitFrom, hoi]
  | succ k ih =>
    intro i fuel htrans hk hfuel
    cases fuel with
    | zero => omega
    | succ fuel =>
      have h0 : transientReply (oracle i) = true := by
        simpa using htrans 0 (Nat.succ_pos _)
      have hshift : ∀ j, j < k → transientReply (oracle (i + 1 + j)) = true := by
        intro j hj
        have e : i + 1 + j = i + (j + 1) := by omega
        rw [e]
        exact htrans (j + 1) (by omega)
      have hk2 : oracle (i + 1 + k) = RelayReply.permanentReject reason := by
        have e : i + 1 + k = i + (k + 1) := by omega
        rw [e]
        exact hk
      cases ho : oracle i with
      | accepted h2 => rw [ho] at h0; simp [transientReply] at h0
      | duplicate h2 => rw [ho] at h0; simp [transientReply] at h0
      | permanentReject h2 => rw [ho] at h0; simp [transientReply] at h0
      | timeout =>
        simp only [submitFrom, ho]
        exact ih (i + 1) fuel hshift hk2 (by omega)
      | http5xx =>
        simp only [submitFrom, ho]
        exact ih (i + 1) fuel hshift hk2 (by omega)
      | connError =>
        simp only [submitFrom, ho]
        exact ih (i + 1) fuel hshift hk2 (by omega)

/-- C6: the Relay Client retries only after a reply in the defined
transient set (every non-final attempt saw a timeout, 5xx-equivalent or
connection error); if every reply within the bounded budget is transient
the call fails with `RelayUnavailable`; and if the first non-transient
reply is a permanent rejection the call fails with `RelayRejected` and
makes exactly one nonce reconciliation call. -/
theorem relay_retry_policy (env : SignedEnvelope) (oracle : Nat → RelayReply)
    (maxAttempts : Nat) (reason : String) (k : Nat) :
    (∀ j, j + 1 < (submit env oracle maxAttempts).attempts.length →
      transientReply (oracle j) = true) ∧
    ((∀ j, j < maxAttempts → transientReply (oracle j) = true) →
      (submit env oracle maxAttempts).outcome =
        Except.error MintError.relayUnavailable) ∧
    ((∀ j, j < k → transientReply (oracle j) = true) →
      oracle k = RelayReply.permanentReject reason → k < maxAttempts →
      (submit env oracle maxAttempts).outcome =
        Except.error MintError.relayRejected ∧
      (submit env oracle maxAttempts).reconcileCalls = 1) := by
  refine ⟨?_, ?_, ?_⟩
  · intro j hj
    have := submitFrom_retry_only_transient env oracle maxAttempts 0 j hj
    simpa using this
  · intro h
    exact submitFrom_exhaust env oracle maxAttempts 0 (by simpa using h)
  · intro h hk hlt
    exact submitFrom_permanent env oracle reason k 0 maxAttempts
      (by simpa using h) (by simpa using hk) hlt

/-- Witness for C6: with a budget of 2 and both replies transient, a
concrete submission fails with `RelayUnavailable`; with the first reply a
permanent rejection, a concrete submission fails with `RelayRejected`
after exactly one reconciliation call. -/
theorem relay_retry_policy_witness :
    (submit
      { payload := { chainId := 1, contractAddress := "0xc",
                     callDescriptor := "cd", nonce := 0, domainContext := "dc" },
        signature := "s" }
      (fun _ => RelayReply.timeout) 2).outcome =
      Except.error MintError.relayUnavailable ∧
    (submit
      { payload := { chainId := 1, contractAddress := "0xc",
                     callDescriptor := "cd", nonce := 0, domainContext := "dc" },
        signature := "s" }
      (fun _ => RelayReply.permanentReject "nonce consumed") 2).outcome =
      Except.error MintError.relayRejected ∧
    (submit
      { payload := { chainId := 1, contractAddress := "0xc",
                     callDescriptor := "cd", nonce := 0, domainContext := "dc" },
        signature := "s" }
      (fun _ => RelayReply.permanentReject "nonce consumed") 2).reconcileCalls = 1 := by
  refine ⟨?_, ?_, ?_⟩
  · exact (relay_retry_policy
      { payload := { chainId := 1, contractAddress := "0xc",
                     callDescriptor := "cd", nonce := 0, domainContext := "dc" },
        signature := "s" }
      (fun _ => RelayReply.timeout) 2 "r" 0).2.1 (fun _ _ => rfl)
  · exact ((relay_retry_policy
      { payload := { chainId := 1, contractAddress := "0xc",
                     callDescriptor := "cd", nonce := 0, domainContext := "dc" },
        signature := "s" }
      (fun _ => RelayReply.permanentReject "nonce consumed") 2 "nonce consumed"
      0).2.2 (fun j hj => absurd hj (by omega)) rfl (by omega)).1
  · exact ((relay_retry_policy
      { payload := { chainId := 1, contractAddress := "0xc",
                     callDescriptor := "cd", nonce := 0, domainContext := "dc" },
        signature := "s" }
      (fun _ => RelayReply.permanentReject "nonce consumed") 2 "nonce consumed"
      0).2.2 (fun j hj => absurd hj (by omega)) rfl (by omega)).2

/-- The polling loop returns still-pending when no poll within the budget
observes a terminal outcome. -/
theorem awaitTerminalFrom_pending (poll : Nat → RelayObservation) (t : Nat) :
    ∀ i : Nat, (∀ j, j < t → poll (i + j) = RelayObservation.stillPendingObs) →
    awaitTerminalFrom poll i t = TrackOutcome.stillPending := by
  induction t with
  | zero => intro i _; rfl
  | succ t ih =>
    intro i h
    have h0 : poll i = RelayObservation.stillPendingObs := by
      simpa using h 0 (Nat.succ_pos _)
    simp only [awaitTerminalFrom, h0]
    exact ih (i + 1) (fun j hj => by
      have e : i + 1 + j = i + (j + 1) := by omega
      rw [e]
      exact h (j + 1) (by omega))

/-- C8: when the timeout elapses before any terminal relay outcome is
observed, `awaitTerminal` returns the non-terminal still-pending value —
not a failure — so the caller can poll again later. -/
theorem await_terminal_timeout_pending (poll : Nat → RelayObservation)
    (timeout : Nat)
    (h : ∀ j, j < timeout → poll j = RelayObservation.stillPendingObs) :
    awaitTerminal poll timeout = TrackOutcome.stillPending ∧
    terminalOutcome (awaitTerminal poll timeout) = false := by
  have hp : awaitTerminal poll timeout = TrackOutcome.stillPending :=
    awaitTerminalFrom_pending poll timeout 0 (by simpa using h)
  exact ⟨hp, by rw [hp]; rfl⟩

/-- Witness for C8: with a relay that stays pending for the whole budget,
a concrete three-poll wait returns still-pending. -/
theorem await_terminal_timeout_pending_witness :
    awaitTerminal (fun _ => RelayObservation.stillPendingObs) 3 =
      TrackOutcome.stillPending ∧
    terminalOutcome (awaitTerminal (fun _ => RelayObservation.stillPendingObs) 3) =
      false :=
  await_terminal_timeout_pending (fun _ => RelayObservation.stillPendingObs) 3
    (fun _ _ => rfl)

/-- One orchestrated call signs at most one envelope. -/
theorem mintOnce_envelopes_le (cfg : CoreConfig)
    (sign : MetaTransactionPayload → String)
    (relay : SignedEnvelope → Except MintError String)
    (st : SysState) (req : MintRequest) :
    (mintOnce cfg sign relay st req).2.envelopes.length ≤
      st.envelopes.length + 1 := by
  unfold mintOnce
  cases hL : st.ledger req.idempotencyKey with
  | some r => simp
  | none =>
    unfold runPipeline
    rcases hb : build cfg req st.nonces with ⟨res, s1⟩
    cases res with
    | error e => simp
    | ok p =>
      cases hr : relay { payload := p, signature := sign p } with
      | error e => simp [hr]
      | ok handle => simp [hr]

/-- After any orchestrated call, the Submission Ledger holds a record
under the request's idempotency key. -/
theorem mintOnce_ledger_some (cfg : CoreConfig)
    (sign : MetaTransactionPayload → String)
    (relay : SignedEnvelope → Except MintError String)
    (st : SysState) (req : MintRequest) :
    ∃ r, (mintOnce cfg sign relay st req).2.ledger req.idempotencyKey = some r := by
  unfold mintOnce
  cases hL : st.ledger req.idempotencyKey with
  | some r => exact ⟨r, hL⟩
  | none =>
    unfold runPipeline
    rcases hb : build cfg req st.nonces with ⟨res, s1⟩
    cases res with
    | error e => simp [putRecord]
    | ok p =>
      cases hr : relay { payload := p, signature := sign p } with
      | error e => simp [hr, putRecord]
      | ok handle => simp [hr, putRecord]

/-- A call whose idempotency key already has a record returns that record
and leaves the state untouched. -/
theorem mintOnce_existing (cfg : CoreConfig)
    (sign : MetaTransactionPayload → String)
    (relay : SignedEnvelope → Except MintError String)
    (st : SysState) (req : MintRequest) (r : SubmissionRecord)
    (h : st.ledger req.idempotencyKey = some r) :
    mintOnce cfg sign relay st req = (Except.ok r, st) := by
  unfold mintOnce
  rw [h]

/-- C1: two orchestrated mint calls carrying the same idempotency key
produce at most one SignedEnvelope in total — the first call signs at
most once, and the second call changes nothing (in particular signs
nothing, so no second envelope with another nonce exists) and returns the
tracking record the first call established, without re-entering the
build/sign/submit pipeline.  The Submission Ledger check-and-create being
atomic (section 4.5), a concurrent pair serializes to exactly this
two-call sequence in one of the two orders, both covered since the
requests are arbitrary. -/
theorem duplicate_key_idempotent (cfg : CoreConfig)
    (sign : MetaTransactionPayload → String)
    (relay : SignedEnvelope → Except MintError String)
    (st : SysState) (req1 req2 : MintRequest)
    (hkey : req2.idempotencyKey = req1.idempotencyKey) :
    (mintOnce cfg sign relay st req1).2.envelopes.length ≤
      st.envelopes.length + 1 ∧
    ∃ r, (mintOnce cfg sign relay st req1).2.ledger req1.idempotencyKey = some r ∧
      mintOnce cfg sign relay (mintOnce cfg sign relay st req1).2 req2 =
        (Except.ok r, (mintOnce cfg sign relay st req1).2) := by
  refine ⟨mintOnce_envelopes_le cfg sign relay st req1, ?_⟩
  obtain ⟨r, hr⟩ := mintOnce_ledger_some cfg sign relay st req1
  refine ⟨r, hr, ?_⟩
  exact mintOnce_existing cfg sign relay (mintOnce cfg sign relay st req1).2 req2 r
    (by rw [hkey]; exact hr)

/-- Witness for C1: two concrete calls with idempotency key `k1` against a
fresh state leave at most one signed envelope and the second call returns
the first call's record unchanged. -/
theorem duplicate_key_idempotent_witness :
    (mintOnce
      { chainId := 137, contractAddress := "0xc", account := "acct",
        contractVersion := "v1" }
      (fun _ => "sig") (fun _ => Except.ok "t1")
      { nonces := fun _ => 0, ledger := fun _ => none, envelopes := [] }
      { recipientAddress := "0x07ac68355ff8663c09644bc50bb02b60140842a8",
        count := 2, tokenURIs := ["ipfs://a", "ipfs://b"],
        idempotencyKey := "k1" }).2.envelopes.length ≤
      ([] : List SignedEnvelope).length + 1 ∧
    ∃ r, (mintOnce
      { chainId := 137, contractAddress := "0xc", account := "acct",
        contractVersion := "v1" }
      (fun _ => "sig") (fun _ => Except.ok "t1")
      { nonces := fun _ => 0, ledger := fun _ => none, envelopes := [] }
      { recipientAddress := "0x07ac68355ff8663c09644bc50bb02b60140842a8",
        count := 2, tokenURIs := ["ipfs://a", "ipfs://b"],
        idempotencyKey := "k1" }).2.ledger "k1" = some r ∧
      mintOnce
        { chainId := 137, contractAddress := "0xc", account := "acct",
          contractVersion := "v1" }
        (fun _ => "sig") (fun _ => Except.ok "t1")
        (mintOnce
          { chainId := 137, contractAddress := "0xc", account := "acct",
            contractVersion := "v1" }
          (fun _ => "sig") (fun _ => Except.ok "t1")
          { nonces := fun _ => 0, ledger := fun _ => none, envelopes := [] }
          { recipientAddress := "0x07ac68355ff8663c09644bc50bb02b60140842a8",
            count := 2, tokenURIs := ["ipfs://a", "ipfs://b"],
            idempotencyKey := "k1" }).2
        { recipientAddress := "0x07ac68355ff8663c09644bc50bb02b60140842a8",
          count := 2, tokenURIs := ["ipfs://a", "ipfs://b"],
          idempotencyKey := "k1" } =
        (Except.ok r,
          (mintOnce
            { chainId := 137, contractAddress := "0xc", account := "acct",
              contractVersion := "v1" }
            (fun _ => "sig") (fun _ => Except.ok "t1")
            { nonces := fun _ => 0, ledger := fun _ => none, envelopes := [] }
            { recipientAddress := "0x07ac68355ff8663c09644bc50bb02b60140842a8",
              count := 2, tokenURIs := ["ipfs://a", "ipfs://b"],
              idempotencyKey := "k1" }).2) :=
  duplicate_key_idempotent
    { chainId := 137, contractAddress := "0xc", account := "acct",
      contractVersion := "v1" }
    (fun _ => "sig") (fun _ => Except.ok "t1")
    { nonces := fun _ => 0, ledger := fun _ => none, envelopes := [] }
    { recipientAddress := "0x07ac68355ff8663c09644bc50bb02b60140842a8",
      count := 2, tokenURIs := ["ipfs://a", "ipfs://b"],
      idempotencyKey := "k1" }
    { recipientAddress := "0x07ac68355ff8663c09644bc50bb02b60140842a8",
      count := 2, tokenURIs := ["ipfs://a", "ipfs://b"],
      idempotencyKey := "k1" }
    rfl
